import Mathlib

/-!
# Verification of the gammapy estimator / safe-mask / cube-model slice

Shallow embedding of the code in `gammapy/estimators/energydependence.py`,
`gammapy/makers/safe.py` and `gammapy/modeling/models/cube.py`.

Conventions of the embedding:
* float values are modelled by `ℚ`; a float that can be NaN or infinite is
  modelled by `Option ℚ` with `none` for the non-finite case;
* Python exceptions are modelled by `Except PyErr`;
* numpy arrays and gammapy maps are flattened to `List`s over their bins;
* external gammapy machinery that is not part of the embedded files
  (fit backends, sky geometry, effective-area interpolation) enters as
  explicit functional parameters or structure fields.
-/

/-- Python exception kinds raised by the embedded code. -/
inductive PyErr where
  | valueError (msg : String)
  | indexError (msg : String)
  deriving DecidableEq, Repr

/-- Holds exactly for `ValueError`, the exception the claims talk about. -/
def PyErr.isValueError : PyErr → Bool
  | .valueError _ => true
  | .indexError _ => false

/-! ## Energy-dependence estimator (`gammapy/estimators/energydependence.py`) -/

/-- Result of one `Fit.run` call: the total fit statistic and the list of
names of the free parameters of the fitted datasets
(`result.parameters.free_parameters.names`). -/
structure FitResult where
  total_stat : ℚ
  free_names : List String
  deriving Repr

/-- Result of one `TestStatisticNested.run` call, as used by
`estimate_source_significance`: the test statistic `ts` and the free
parameter names of the contained `fit_results`. -/
structure TestResult where
  ts : ℚ
  fit_free_names : List String
  deriving Repr

/-- Embedding of `np.shape` applied to a list of lists, keeping only the 2-d case.
Python returns a pair of dimensions exactly when the nested list is
non-empty and rectangular; on a ragged or empty list the subsequent
unpacking `free_x, free_y = np.shape(...)` raises, which we model by
`none`. -/
def npShape2 (xss : List (List String)) : Option (ℕ × ℕ) :=
  match xss with
  | [] => none
  | xs :: rest =>
      if rest.all (fun r => r.length == xs.length) then some (xss.length, xs.length)
      else none

/-- Core computation of `EnergyDependenceEstimator.estimate_energy_dependence`:
from the sliced fit results and the joint fit result it forms
`delta_ts = result_joint.total_stat - sum(results_src_total_stat)` and
`df = free_x * free_y - df_joint`, where `(free_x, free_y)` is the numpy
shape of the matrix of free-parameter names of the sliced fits and
`df_joint` is the number of free-parameter names of the joint fit
(`len(slices_src.parameters.free_parameters.names)`, carried here as the
`free_names` of the joint result). The surrounding slicing and fitting is
delegated to the external `Fit` machinery, whose outcomes are the inputs. -/
def estimate_energy_dependence (results_src : List FitResult)
    (result_joint : FitResult) : Option (ℚ × ℤ) :=
  match npShape2 (results_src.map (fun r => r.free_names)) with
  | none => none
  | some (free_x, free_y) =>
      let df_src : ℤ := (free_x : ℤ) * (free_y : ℤ)
      let delta_ts_joint : ℚ :=
        result_joint.total_stat - (results_src.map (fun r => r.total_stat)).sum
      let df_joint : ℤ := result_joint.free_names.length
      some (delta_ts_joint, df_src - df_joint)

/-- Core computation of
`EnergyDependenceEstimator.estimate_source_significance`: the per-slice
`delta_ts` list, the shared degrees of freedom `df_src[0] - 1` replicated
over the energy bands, and the significances `ts_to_sigma(delta_ts, df)`.
`ts_to_sigma` lives in `gammapy/stats/utils.py` (outside the embedded
files) and enters as the functional parameter `sigma`. An empty result
list makes `df_src[0]` raise `IndexError`, modelled by `none`. -/
def estimate_source_significance (sigma : ℚ → ℤ → ℚ)
    (test_results : List TestResult) (num_energy_bands : ℕ) :
    Option (List ℚ × List ℤ × List ℚ) :=
  match test_results with
  | [] => none
  | t0 :: _ =>
      let delta_ts_bkg_src := test_results.map (fun t => t.ts)
      let df_bkg : ℤ := 1
      let df_bkg_src : ℤ := (t0.fit_free_names.length : ℤ) - df_bkg
      some (delta_ts_bkg_src,
            List.replicate num_energy_bands df_bkg_src,
            delta_ts_bkg_src.map (fun t => sigma t df_bkg_src))

/-- Payload stored under one key of the dictionary returned by
`EnergyDependenceEstimator.run`. -/
inductive RunEntry where
  | edep (v : ℚ × ℤ)
  | srcbkg (v : List ℚ × List ℤ × List ℚ)
  deriving Repr

/-- Input of `EnergyDependenceEstimator.run`: either a `Datasets` instance,
carrying the fit outcomes the two estimation steps consume, or any other
object. -/
inductive RunInput where
  | datasets (results_src : List FitResult) (result_joint : FitResult)
      (test_results : List TestResult) (num_energy_bands : ℕ)
  | notDatasets
  deriving Repr

/-- Embedding of `EnergyDependenceEstimator.run`: rejects non-`Datasets` inputs with a
`ValueError`, otherwise builds the dictionary with the keys
`energy_dependence` and `src_above_bkg` from the two estimation steps. -/
def EnergyDependenceEstimator.run (sigma : ℚ → ℤ → ℚ) :
    RunInput → Except PyErr (List (String × RunEntry))
  | .notDatasets => .error (.valueError ("Unsupported dataset type."))
  | .datasets results_src result_joint test_results num_energy_bands =>
      match estimate_energy_dependence results_src result_joint with
      | none => .error (.indexError ("ragged free parameter table"))
      | some ed =>
          match estimate_source_significance sigma test_results num_energy_bands with
          | none => .error (.indexError ("list index out of range"))
          | some sb =>
              .ok [(("energy_dependence"), RunEntry.edep ed),
                   (("src_above_bkg"), RunEntry.srcbkg sb)]

/-- Sum of the lengths of a list of equally long lists. -/
theorem sum_lengths_of_all_eq (rest : List (List String)) (n : ℕ)
    (hall : ∀ r ∈ rest, r.length = n) :
    (rest.map List.length).sum = rest.length * n := by
  induction rest with
  | nil => simp
  | cons y ys ih =>
      simp only [List.map_cons, List.sum_cons, List.length_cons]
      rw [hall y (by simp), ih (fun r hrr => hall r (by simp [hrr]))]
      ring

/-- Rectangularity lemma: a successful `npShape2` makes the product of the
two dimensions the total number of entries. -/
theorem npShape2_mul_eq_sum (xss : List (List String)) (a b : ℕ)
    (h : npShape2 xss = some (a, b)) :
    a * b = (xss.map List.length).sum := by
  unfold npShape2 at h
  match xss with
  | [] => exact absurd h (by simp)
  | xs :: rest =>
      simp only at h
      by_cases hr : rest.all (fun r => r.length == xs.length)
      · rw [if_pos hr] at h
        have ha : rest.length + 1 = a := by
          simpa [List.length_cons] using congrArg Prod.fst (Option.some.inj h)
        have hb : xs.length = b := by
          simpa using congrArg Prod.snd (Option.some.inj h)
        subst ha hb
        have hall : ∀ r ∈ rest, r.length = xs.length := by
          intro r hrr
          exact beq_iff_eq.mp ((List.all_eq_true.mp hr) r hrr)
        simp only [List.map_cons, List.sum_cons]
        rw [sum_lengths_of_all_eq rest xs.length hall]
        ring
      · rw [if_neg hr] at h
        exact absurd h (by simp)

/-- C1: for every collection of sliced fit outcomes and every joint fit
outcome (with the rectangular free-parameter table that
`free_x, free_y = np.shape(...)` requires), `estimate_energy_dependence`
returns `delta_ts` equal to the joint total fit statistic minus the sum of
the sliced total fit statistics, and `df` equal to the total number of
free parameters summed over the sliced fits minus the number of free
parameters of the joint fit. -/
theorem edep_C1 (results_src : List FitResult) (result_joint : FitResult)
    (free_x free_y : ℕ)
    (h : npShape2 (results_src.map (fun r => r.free_names)) = some (free_x, free_y)) :
    estimate_energy_dependence results_src result_joint =
      some (result_joint.total_stat - (results_src.map (fun r => r.total_stat)).sum,
            (((results_src.map (fun r => r.free_names.length)).sum : ℕ) : ℤ)
              - (result_joint.free_names.length : ℤ)) := by
  unfold estimate_energy_dependence
  rw [h]
  have hmul := npShape2_mul_eq_sum _ _ _ h
  rw [List.map_map] at hmul
  simp only [Function.comp_def] at hmul
  have hcast : (free_x : ℤ) * (free_y : ℤ)
      = (((results_src.map (fun r => r.free_names.length)).sum : ℕ) : ℤ) := by
    rw [← Nat.cast_mul, hmul]
  simp only [hcast]

def edepSampleSliced : List FitResult :=
  [⟨10, [("a"), ("b")]⟩, ⟨20, [("c"), ("d")]⟩]

def edepSampleJoint : FitResult := ⟨35, [("a"), ("b")]⟩

/-- Witness for C1 at a concrete input with two sliced fits. -/
theorem edep_C1_witness :
    estimate_energy_dependence edepSampleSliced edepSampleJoint = some (5, 2) := by
  rw [edep_C1 edepSampleSliced edepSampleJoint 2 2 (by decide)]
  norm_num [edepSampleSliced, edepSampleJoint]

/-- C5: for every non-empty list of nested-test outcomes,
`estimate_source_significance` reports for every energy band the same
degrees of freedom, namely the number of free parameters in the first
test fit result minus one, and computes every significance entry from
its `delta_ts` with that shared `df`. -/
theorem edep_C5 (sigma : ℚ → ℤ → ℚ) (test_results : List TestResult)
    (num_energy_bands : ℕ) (hne : test_results ≠ []) :
    ∃ delta dfs sigs,
      estimate_source_significance sigma test_results num_energy_bands
        = some (delta, dfs, sigs) ∧
      delta = test_results.map (fun t => t.ts) ∧
      dfs.length = num_energy_bands ∧
      (∀ b : ℕ, ∀ hb : b < dfs.length,
        dfs[b] = ((test_results.headD ⟨0, []⟩).fit_free_names.length : ℤ) - 1) ∧
      sigs.length = delta.length ∧
      (∀ k : ℕ, ∀ hk : k < sigs.length, ∀ hk2 : k < delta.length,
        sigs[k] = sigma delta[k]
          (((test_results.headD ⟨0, []⟩).fit_free_names.length : ℤ) - 1)) := by
  match test_results with
  | [] => exact absurd rfl hne
  | t0 :: rest =>
      refine ⟨_, _, _, rfl, rfl, ?_, ?_, ?_, ?_⟩
      · simp [List.length_replicate]
      · intro b hb
        exact List.getElem_replicate ((t0.fit_free_names.length : ℤ) - 1) hb
      · simp
      · intro k hk hk2
        exact List.getElem_map (fun t => sigma t ((t0.fit_free_names.length : ℤ) - 1))

def edepSampleTests : List TestResult :=
  [⟨25, [("norm"), ("x0"), ("y0")]⟩, ⟨16, [("norm"), ("x0"), ("y0")]⟩]

/-- Witness for C5 at a concrete input with two energy bands. -/
theorem edep_C5_witness :
    ∃ delta dfs sigs,
      estimate_source_significance (fun t d => t / (d + 1)) edepSampleTests 2
        = some (delta, dfs, sigs) ∧
      delta = edepSampleTests.map (fun t => t.ts) ∧
      dfs.length = 2 ∧
      (∀ b : ℕ, ∀ hb : b < dfs.length,
        dfs[b] = ((edepSampleTests.headD ⟨0, []⟩).fit_free_names.length : ℤ) - 1) ∧
      sigs.length = delta.length ∧
      (∀ k : ℕ, ∀ hk : k < sigs.length, ∀ hk2 : k < delta.length,
        sigs[k] = (fun (t : ℚ) (d : ℤ) => t / (d + 1)) delta[k]
          (((edepSampleTests.headD ⟨0, []⟩).fit_free_names.length : ℤ) - 1)) :=
  edep_C5 (fun t d => t / (d + 1)) edepSampleTests 2 (by simp [edepSampleTests])

/-- C7: `EnergyDependenceEstimator.run` raises `ValueError` on every input
that is not a `Datasets` instance; on a `Datasets` input whose two
estimation steps are defined, it returns a dictionary whose keys are
exactly `energy_dependence` and `src_above_bkg`, holding the
energy-dependence result and the source-significance result. -/
theorem edep_C7 (sigma : ℚ → ℤ → ℚ) (inp : RunInput) :
    (inp = RunInput.notDatasets →
      EnergyDependenceEstimator.run sigma inp
        = .error (.valueError ("Unsupported dataset type."))) ∧
    (∀ results_src result_joint test_results num_energy_bands,
      inp = RunInput.datasets results_src result_joint test_results num_energy_bands →
      ∀ ed sb, estimate_energy_dependence results_src result_joint = some ed →
        estimate_source_significance sigma test_results num_energy_bands = some sb →
        EnergyDependenceEstimator.run sigma inp
          = .ok [(("energy_dependence"), RunEntry.edep ed),
                 (("src_above_bkg"), RunEntry.srcbkg sb)]) := by
  constructor
  · rintro rfl
    rfl
  · rintro results_src result_joint test_results num_energy_bands rfl ed sb hed hsb
    simp only [EnergyDependenceEstimator.run, hed, hsb]

/-- Witness for C7: the error branch and the dictionary branch at concrete
inputs. -/
theorem edep_C7_witness :
    EnergyDependenceEstimator.run (fun t d => t / (d + 1)) RunInput.notDatasets
      = .error (.valueError ("Unsupported dataset type.")) ∧
    EnergyDependenceEstimator.run (fun t d => t / (d + 1))
        (RunInput.datasets edepSampleSliced edepSampleJoint edepSampleTests 2)
      = .ok [(("energy_dependence"), RunEntry.edep (5, 2)),
             (("src_above_bkg"), RunEntry.srcbkg
               (edepSampleTests.map (fun t => t.ts),
                List.replicate 2 2,
                (edepSampleTests.map (fun t => t.ts)).map (fun t => t / (2 + 1))))] := by
  constructor
  · exact (edep_C7 (fun t d => t / (d + 1)) RunInput.notDatasets).1 rfl
  · exact (edep_C7 (fun t d => t / (d + 1))
      (RunInput.datasets edepSampleSliced edepSampleJoint edepSampleTests 2)).2
      edepSampleSliced edepSampleJoint edepSampleTests 2 rfl _ _
      (by norm_num [estimate_energy_dependence, npShape2, edepSampleSliced, edepSampleJoint])
      (by norm_num [estimate_source_significance, edepSampleTests])

/-! ## Sky models (`gammapy/modeling/models/cube.py`) -/

/-- Spatial model component of a `SkyModel`: its energy-dependence flag and
its evaluation maps (two-argument for energy-independent models,
three-argument for energy-dependent ones). -/
structure SpatialModelQ where
  is_energy_dependent : Bool
  eval2 : ℚ → ℚ → ℚ
  eval3 : ℚ → ℚ → ℚ → ℚ

/-- Factorised `SkyModel`: a mandatory spectral model and optional spatial
and temporal components, as held by `SkyModel.__init__`. -/
structure SkyModelQ where
  spectral_model : ℚ → ℚ
  spatial_model : Option SpatialModelQ
  temporal_model : Option (ℚ → ℚ)

/-- Embedding of `SkyModel.evaluate`: start from the spectral value, multiply by the
spatial value (passing the energy when the spatial model is energy
dependent) when a spatial model is set, and multiply by the temporal value
when both a temporal model is set and a time is given. -/
def SkyModelQ.evaluate (m : SkyModelQ) (lon lat energy : ℚ) (time : Option ℚ) : ℚ :=
  let value := m.spectral_model energy
  let value :=
    match m.spatial_model with
    | none => value
    | some sp =>
        if sp.is_energy_dependent then value * sp.eval3 lon lat energy
        else value * sp.eval2 lon lat
  match m.temporal_model, time with
  | some tm, some t => value * tm t
  | _, _ => value

/-- C6: `SkyModel.evaluate` is the factorised product of the spectral value
with the spatial value (at `(lon, lat)`, or `(lon, lat, energy)` for an
energy-dependent spatial model) when a spatial model is set, and with the
temporal value only when both a temporal model is set and a time is given;
an absent component contributes no factor. -/
theorem cube_C6 (m : SkyModelQ) (lon lat energy : ℚ) (time : Option ℚ) :
    m.evaluate lon lat energy time =
      m.spectral_model energy *
      (match m.spatial_model with
       | none => 1
       | some sp =>
           if sp.is_energy_dependent then sp.eval3 lon lat energy
           else sp.eval2 lon lat) *
      (match m.temporal_model, time with
       | some tm, some t => tm t
       | _, _ => 1) := by
  unfold SkyModelQ.evaluate
  rcases m with ⟨spec, sp, tm⟩
  rcases sp with _ | sp
  · rcases tm with _ | tm <;> rcases time with _ | t <;> simp
  · rcases tm with _ | tm <;> rcases time with _ | t <;>
      rcases hdep : sp.is_energy_dependent <;> simp [hdep, mul_assoc]

/-- Embedding of `BackgroundModel`: the template map values per energy bin, the bin
centre energies of the energy axis of the map, and the `norm` and `tilt`
parameters of its `PowerLawNormSpectralModel`. The spectral shape itself
lives in `gammapy/modeling/models/spectral.py`, outside the embedded
files, and enters the operations below as the functional parameter `sv`
mapping `(norm, tilt, energy)` to the spectral value. -/
structure BackgroundModelQ where
  mapData : List ℚ
  energyCenters : List ℚ
  norm : ℚ
  tilt : ℚ

/-- Embedding of `BackgroundModel.evaluate`: the map values multiplied bin-wise by the
spectral model evaluated at the energy bin centres. -/
def BackgroundModelQ.evaluate (sv : ℚ → ℚ → ℚ → ℚ) (m : BackgroundModelQ) : List ℚ :=
  List.zipWith (fun dv ec => dv * sv m.norm m.tilt ec) m.mapData m.energyCenters

/-- Modelled from the spec: `Map.stack` (in `gammapy/maps`, outside the
embedded files) accumulates the other map onto the current one, adding the
values of the other map, multiplied by the optional weights, bin by bin. -/
def mapStack (a b : List ℚ) (weights : Option (List ℚ)) : List ℚ :=
  match weights with
  | none => List.zipWith (fun x y => x + y) a b
  | some ws => List.zipWith (fun x y => x + y) a (List.zipWith (fun y w => y * w) b ws)

/-- Embedding of `BackgroundModel.stack`: evaluate both models, stack the evaluated
maps, store the result as the new template map, and reset the spectral
parameters to `norm = 1`, `tilt = 0`. -/
def BackgroundModelQ.stack (sv : ℚ → ℚ → ℚ → ℚ) (m other : BackgroundModelQ)
    (weights : Option (List ℚ)) : BackgroundModelQ :=
  let bkg := m.evaluate sv
  let other_bkg := other.evaluate sv
  let stacked := mapStack bkg other_bkg weights
  { m with mapData := stacked, norm := 1, tilt := 0 }

/-- C10: after `BackgroundModel.stack`, the `norm` of the calling model is 1 and
`tilt` is 0, and each bin of its map is its own norm- and tilt-scaled
value plus the norm- and tilt-scaled value of the other model (times the weight
when weights are given). -/
theorem cube_C10 (sv : ℚ → ℚ → ℚ → ℚ) (m other : BackgroundModelQ)
    (weights : Option (List ℚ)) (n : ℕ)
    (hm : m.mapData.length = n) (hme : m.energyCenters.length = n)
    (ho : other.mapData.length = n) (hoe : other.energyCenters.length = n)
    (hw : ∀ ws, weights = some ws → ws.length = n) :
    (m.stack sv other weights).norm = 1 ∧
    (m.stack sv other weights).tilt = 0 ∧
    (m.stack sv other weights).mapData.length = n ∧
    (∀ j : ℕ, j < n →
      (m.stack sv other weights).mapData.getD j 0 =
        m.mapData.getD j 0 * sv m.norm m.tilt (m.energyCenters.getD j 0)
        + other.mapData.getD j 0 * sv other.norm other.tilt (other.energyCenters.getD j 0)
          * weights.elim 1 (fun ws => ws.getD j 0)) := by
  refine ⟨rfl, rfl, ?_, ?_⟩
  · rcases weights with _ | ws
    · simp [BackgroundModelQ.stack, mapStack, BackgroundModelQ.evaluate, hm, hme, ho, hoe]
    · have hws := hw ws rfl
      simp [BackgroundModelQ.stack, mapStack, BackgroundModelQ.evaluate, hm, hme, ho, hoe, hws]
  · intro j hjn
    rcases weights with _ | ws
    · rw [show (m.stack sv other none).mapData
          = List.zipWith (fun x y => x + y) (m.evaluate sv) (other.evaluate sv) from rfl]
      have hlen : j < (List.zipWith (fun x y : ℚ => x + y)
          (m.evaluate sv) (other.evaluate sv)).length := by
        simp [BackgroundModelQ.evaluate, hm, hme, ho, hoe]
        omega
      rw [List.getD_eq_getElem _ 0 hlen]
      rw [List.getElem_zipWith]
      unfold BackgroundModelQ.evaluate
      rw [List.getElem_zipWith, List.getElem_zipWith]
      rw [List.getD_eq_getElem m.mapData 0 (by omega),
          List.getD_eq_getElem m.energyCenters 0 (by omega),
          List.getD_eq_getElem other.mapData 0 (by omega),
          List.getD_eq_getElem other.energyCenters 0 (by omega)]
      simp only [Option.elim]
      ring
    · have hws := hw ws rfl
      rw [show (m.stack sv other (some ws)).mapData
          = List.zipWith (fun x y => x + y) (m.evaluate sv)
              (List.zipWith (fun y w => y * w) (other.evaluate sv) ws) from rfl]
      have hlen : j < (List.zipWith (fun x y : ℚ => x + y) (m.evaluate sv)
          (List.zipWith (fun y w : ℚ => y * w) (other.evaluate sv) ws)).length := by
        simp [BackgroundModelQ.evaluate, hm, hme, ho, hoe, hws]
        omega
      rw [List.getD_eq_getElem _ 0 hlen]
      rw [List.getElem_zipWith]
      rw [List.getElem_zipWith]
      unfold BackgroundModelQ.evaluate
      rw [List.getElem_zipWith, List.getElem_zipWith]
      simp only [Option.elim]
      rw [List.getD_eq_getElem m.mapData 0 (by omega),
          List.getD_eq_getElem m.energyCenters 0 (by omega),
          List.getD_eq_getElem other.mapData 0 (by omega),
          List.getD_eq_getElem other.energyCenters 0 (by omega),
          List.getD_eq_getElem ws 0 (by omega)]

def bkgSampleA : BackgroundModelQ := ⟨[2, 3], [1, 10], 2, 1⟩

def bkgSampleB : BackgroundModelQ := ⟨[5, 7], [1, 10], 1, 0⟩

/-- Witness for C10 at concrete two-bin background models without
weights. -/
theorem cube_C10_witness :
    (bkgSampleA.stack (fun nrm tl e => nrm + tl * e) bkgSampleB none).norm = 1 ∧
    (bkgSampleA.stack (fun nrm tl e => nrm + tl * e) bkgSampleB none).tilt = 0 ∧
    (bkgSampleA.stack (fun nrm tl e => nrm + tl * e) bkgSampleB none).mapData.length = 2 ∧
    (∀ j : ℕ, j < 2 →
      (bkgSampleA.stack (fun nrm tl e => nrm + tl * e) bkgSampleB none).mapData.getD j 0 =
        bkgSampleA.mapData.getD j 0
          * (fun (nrm tl e : ℚ) => nrm + tl * e) bkgSampleA.norm bkgSampleA.tilt
              (bkgSampleA.energyCenters.getD j 0)
        + bkgSampleB.mapData.getD j 0
          * (fun (nrm tl e : ℚ) => nrm + tl * e) bkgSampleB.norm bkgSampleB.tilt
              (bkgSampleB.energyCenters.getD j 0)
          * (none : Option (List ℚ)).elim 1 (fun ws => ws.getD j 0)) :=
  cube_C10 (fun nrm tl e => nrm + tl * e) bkgSampleA bkgSampleB none 2
    (by simp [bkgSampleA]) (by simp [bkgSampleA]) (by simp [bkgSampleB]) (by simp [bkgSampleB])
    (by intro ws hws; cases hws)

/-! ## Safe mask maker (`gammapy/makers/safe.py`) -/

/-- A scalar `SkyCoord`; such an object is always truthy in Python. -/
structure SkyCoordQ where
  lon : ℚ
  lat : ℚ
  deriving DecidableEq, Repr

/-- Python truthiness of the optional `fixed_offset` angle: `None` is
falsy, and an `Angle` — a numpy scalar — is falsy exactly when it is
zero. -/
def truthyAngle : Option ℚ → Bool
  | none => false
  | some x => decide (x ≠ 0)

/-- Python truthiness of the optional `position` coordinate: `None` is
falsy, a scalar `SkyCoord` is truthy. -/
def truthySky : Option SkyCoordQ → Bool
  | none => false
  | some _ => true

/-- The `SafeMaskMaker` state after a successful `__init__`. -/
structure SafeMaskMaker where
  methods : List String
  aeff_percent : ℚ
  bias_percent : ℚ
  position : Option SkyCoordQ
  fixed_offset : Option ℚ
  offset_max : ℚ

/-- Embedding of `SafeMaskMaker.available_methods`. -/
def availableMethods : List String :=
  [("aeff-default"), ("aeff-max"), ("edisp-bias"), ("offset-max"), ("bkg-peak")]

/-- Embedding of `SafeMaskMaker.__init__`: reject methods outside `available_methods`
with a `ValueError`, store the attributes, then reject the combination in
which `self.position and self.fixed_offset` is truthy. -/
def SafeMaskMaker.init (methods : List String) (aeff_percent bias_percent : ℚ)
    (position : Option SkyCoordQ) (fixed_offset : Option ℚ) (offset_max : ℚ) :
    Except PyErr SafeMaskMaker :=
  if ¬ methods.all (fun mth => availableMethods.contains mth) then
    .error (.valueError ("is not a valid method."))
  else if truthySky position && truthyAngle fixed_offset then
    .error (.valueError ("position and fixed_offset attributes are mutually exclusive"))
  else
    .ok { methods := methods, aeff_percent := aeff_percent,
          bias_percent := bias_percent, position := position,
          fixed_offset := fixed_offset, offset_max := offset_max }

/-- An `Observation`: its id and its pointing, exposed through the astropy
computation `pointing_radec.directional_offset_by(0 deg, separation)` that
the safe-mask maker applies to it, modelled by the field
`offsetPosition`. -/
structure Observation where
  obs_id : ℕ
  offsetPosition : ℚ → SkyCoordQ

/-- The effective-area spectrum at a position: the true-energy nodes, the
effective-area values, and `TemplateSpectralModel.inverse` (defined in
`gammapy/modeling/models/spectral.py`, outside the embedded files), which
maps a threshold value and the two bracketing energies to the inverted
energy, `none` standing for a NaN result. -/
structure AeffSpectrum where
  energy : List ℚ
  values : List ℚ
  inverse : ℚ → ℚ → ℚ → Option ℚ

/-- A `MapDataset`/`SpectrumDataset` as consumed by `SafeMaskMaker`,
flattened over the reconstructed-energy bins of its geometry. External
geometry computations (separation maps, default-threshold masks, spectrum
extraction, energy-dispersion bias) are fields. `background` values are
`none` when non-finite; `npredSpectrum` is the spectrum of
`npred_background()`. -/
structure SMDataset where
  edges : List ℚ
  background : Option (List (Option ℚ))
  stat_type : String
  center_skydir : SkyCoordQ
  sepFrom : Observation → List ℚ
  aeffDefaultMaskOf : Observation → List Bool
  aeffAt : SkyCoordQ → AeffSpectrum
  edispBiasEnergy : Option SkyCoordQ → ℚ → ℚ
  npredSpectrum : List ℚ

/-- Number of reconstructed-energy bins of the dataset geometry. -/
def SMDataset.nbins (d : SMDataset) : ℕ := d.edges.length - 1

/-- Modelled from the spec: `geom.energy_mask` (in `gammapy/maps`, outside
the embedded files) keeps the energy bins entirely contained in the
interval — bin `j` is kept iff its lower edge is at least `energy_min` and
its upper edge is at most `energy_max`, an absent bound being no
constraint. -/
def energyMask (edges : List ℚ) (energy_min energy_max : Option ℚ) : List Bool :=
  (edges.zip edges.tail).map fun p =>
    (energy_min.elim true (fun lo => decide (lo ≤ p.1))) &&
    (energy_max.elim true (fun hi => decide (p.2 ≤ hi)))

/-- Modelled from the spec: `energy_axis.pix_to_coord` maps a bin index to
the bin centre, a value strictly between the edges of the bin; the geometric
centre of the log axis is modelled by the arithmetic midpoint, which lies
strictly between the same two edges. -/
def pixToCoord (edges : List ℚ) (idx : ℕ) : ℚ :=
  (edges.getD idx 0 + edges.getD (idx + 1) 0) / 2

/-- Embedding of `np.argmax` over a 1-d array: the index of the first occurrence of the
maximum (0 on the empty array, on which numpy raises instead; the caller
guards that case). -/
def argmaxFirst : List ℚ → ℕ
  | [] => 0
  | x :: xs =>
      if xs.isEmpty then 0
      else
        let r := argmaxFirst xs
        if x < xs.getD r 0 then r + 1 else 0

/-- First index holding a positive value: `np.where(values > 0)[0][0]`,
`none` when there is none (numpy raises `IndexError` there). -/
def firstIdxPos : List ℚ → Option ℕ
  | [] => none
  | x :: xs => if 0 < x then some 0 else (firstIdxPos xs).map (fun i => i + 1)

/-- Embedding of `array.max()` over a non-empty array (0 on the empty one). -/
def listMax (l : List ℚ) : ℚ := l.foldl max (l.headD 0)

/-- Embedding of `SafeMaskMaker.make_mask_offset_max`: requires an observation, then
keeps the pixels closer to the pointing than `offset_max`. -/
def make_mask_offset_max (m : SafeMaskMaker) (d : SMDataset)
    (observation : Option Observation) : Except PyErr (List Bool) :=
  match observation with
  | none => .error (.valueError ("Method offset-max requires an observation object."))
  | some obs => .ok ((d.sepFrom obs).map (fun s => decide (s < m.offset_max)))

/-- Embedding of `SafeMaskMaker.make_mask_energy_aeff_default`: requires an observation,
then reads the DL3 default thresholds; the threshold lookup and the
resulting energy mask are external and enter as the dataset field
`aeffDefaultMaskOf`. -/
def make_mask_energy_aeff_default (d : SMDataset)
    (observation : Option Observation) : Except PyErr (List Bool) :=
  match observation with
  | none => .error (.valueError ("Method offset-max requires an observation object."))
  | some obs => .ok (d.aeffDefaultMaskOf obs)

/-- Position resolution at the top of `make_mask_energy_aeff_max`: a truthy
`fixed_offset` demands an observation (else `ValueError`) and offsets the
pointing; otherwise a truthy `position` is used, else the map centre. -/
def aeffMaxPosition (m : SafeMaskMaker) (d : SMDataset)
    (observation : Option Observation) : Except PyErr SkyCoordQ :=
  if truthyAngle m.fixed_offset then
    match observation with
    | some obs => .ok (obs.offsetPosition (m.fixed_offset.getD 0))
    | none => .error (.valueError ("observation argument is mandatory with fixed_offset"))
  else
    match m.position with
    | some p => .ok p
    | none => .ok d.center_skydir

/-- Embedding of `SafeMaskMaker.make_mask_energy_aeff_max`: resolve the position, take
the effective-area spectrum there, bracket the inversion between the first
energy with positive effective area and the first energy node, invert the
curve at `aeff_percent/100` of the spectrum maximum, and use the inversion
as lower energy bound unless it is NaN, in which case the first positive
energy is used. -/
def make_mask_energy_aeff_max (m : SafeMaskMaker) (d : SMDataset)
    (observation : Option Observation) : Except PyErr (List Bool) :=
  (aeffMaxPosition m d observation).bind fun position =>
    let aeff := d.aeffAt position
    match firstIdxPos aeff.values with
    | none => .error (.indexError ("index 0 is out of bounds for axis 0 with size 0"))
    | some i =>
        let energy_min := aeff.energy.getD i 0
        let energy_max := aeff.energy.getD 0 0
        let aeff_thres := m.aeff_percent / 100 * listMax aeff.values
        match aeff.inverse aeff_thres energy_min energy_max with
        | some e => .ok (energyMask d.edges (some e) none)
        | none => .ok (energyMask d.edges (some energy_min) none)

/-- Embedding of `SafeMaskMaker.make_mask_energy_edisp_bias`: a truthy `fixed_offset`
demands an observation (else `ValueError`) and offsets the pointing;
the energy-dispersion kernel bias energy at the resulting position (or at
`self.position` when no offset position was set) is external and enters as
the dataset field `edispBiasEnergy`. -/
def make_mask_energy_edisp_bias (m : SafeMaskMaker) (d : SMDataset)
    (observation : Option Observation) : Except PyErr (List Bool) :=
  let positionE : Except PyErr (Option SkyCoordQ) :=
    if truthyAngle m.fixed_offset then
      match observation with
      | some obs => .ok (some (obs.offsetPosition (m.fixed_offset.getD 0)))
      | none => .error (.valueError ("None argument is mandatory with fixed_offset"))
    else .ok none
  positionE.bind fun position =>
    let pos :=
      match position with
      | some p => some p
      | none => m.position
    .ok (energyMask d.edges (some (d.edispBiasEnergy pos (m.bias_percent / 100))) none)

/-- Embedding of `SafeMaskMaker.make_mask_energy_bkg_peak`: the safe threshold is
`pix_to_coord` of the `argmax` bin of the predicted background spectrum,
fed into the energy mask of the geometry. -/
def make_mask_energy_bkg_peak (d : SMDataset) : Except PyErr (List Bool) :=
  match d.npredSpectrum with
  | [] => .error (.valueError ("attempt to get argmax of an empty sequence"))
  | _ :: _ =>
      .ok (energyMask d.edges (some (pixToCoord d.edges (argmaxFirst d.npredSpectrum))) none)

/-- Embedding of `SafeMaskMaker.make_mask_bkg_invalid`: finite background values, with
strict positivity additionally required unless the dataset uses `wstat`
(a comparison against a non-finite float is false either way). -/
def make_mask_bkg_invalid (bkg : List (Option ℚ)) (stat_type : String) : List Bool :=
  if stat_type != ("wstat") then
    bkg.map (fun v => v.isSome && decide (0 < v.getD 0))
  else
    bkg.map (fun v => v.isSome)

/-- Bin-wise logical AND (`mask &= other`). -/
def zipAnd (a b : List Bool) : List Bool := List.zipWith (fun x y => x && y) a b

/-- The initial `mask_safe` of `SafeMaskMaker.run`: all-true, AND-ed with
the invalid-background mask when a background is present. -/
def baseMask (d : SMDataset) : List Bool :=
  match d.background with
  | some bkg => zipAnd (List.replicate d.nbins true) (make_mask_bkg_invalid bkg d.stat_type)
  | none => List.replicate d.nbins true

/-- One `mask_safe &= self.make_...()` step of `SafeMaskMaker.run`, guarded
by membership of the method in `self.methods`. -/
def chainMask (sel : Bool) (sub : Except PyErr (List Bool)) (mask : List Bool) :
    Except PyErr (List Bool) :=
  if sel then Except.map (fun s => zipAnd mask s) sub else .ok mask

/-- Embedding of `SafeMaskMaker.run`: fold the masks of the selected methods onto the base
mask with logical AND. Note that the `aeff-max` and `edisp-bias` steps are
invoked without forwarding the observation argument, exactly as in the
source. -/
def SafeMaskMaker.run (m : SafeMaskMaker) (d : SMDataset)
    (observation : Option Observation) : Except PyErr (List Bool) :=
  (chainMask (m.methods.contains ("offset-max"))
      (make_mask_offset_max m d observation) (baseMask d)).bind
    (chainMask (m.methods.contains ("aeff-default"))
      (make_mask_energy_aeff_default d observation)) |>.bind
    (chainMask (m.methods.contains ("aeff-max"))
      (make_mask_energy_aeff_max m d none)) |>.bind
    (chainMask (m.methods.contains ("edisp-bias"))
      (make_mask_energy_edisp_bias m d none)) |>.bind
    (chainMask (m.methods.contains ("bkg-peak"))
      (make_mask_energy_bkg_peak d))

/-- Holds exactly on a successful (non-raising) result. -/
def exceptOk {α : Type} : Except PyErr α → Bool
  | .ok _ => true
  | .error _ => false

/-- Truthiness of the optional position is exactly its being set. -/
theorem truthySky_eq_isSome (p : Option SkyCoordQ) : truthySky p = p.isSome := by
  cases p <;> rfl

/-- Truthiness of the optional angle is its being set to a nonzero value. -/
theorem truthyAngle_eq_true_iff (f : Option ℚ) :
    truthyAngle f = true ↔ ∃ x, f = some x ∧ x ≠ 0 := by
  cases f with
  | none => simp [truthyAngle]
  | some x => simp [truthyAngle]

/-- The `__init__` subset check in terms of membership. -/
theorem all_contains_iff (methods : List String) :
    (methods.all (fun mth => availableMethods.contains mth) = true)
      ↔ (∀ mth ∈ methods, mth ∈ availableMethods) := by
  rw [List.all_eq_true]
  constructor
  · intro h mth hm
    simpa using h mth hm
  · intro h mth hm
    simpa using h mth hm

/-- C8 counterexample: with `position` set and `fixed_offset` set to the
zero angle, both attributes are set, yet `__init__` succeeds, because a
zero `Angle` is falsy in the truthiness test
`if self.position and self.fixed_offset`. -/
theorem safe_C8_counterexample :
    exceptOk (SafeMaskMaker.init [("aeff-default")] 10 10
      (some ⟨0, 0⟩) (some 0) 3) = true := by
  rfl

/-- C8 amended: `__init__` raises `ValueError` if and only if the methods
are not a subset of the five available methods, or `position` is set and
`fixed_offset` is set to a nonzero angle (the Python truthiness of the two
attributes); every other argument combination constructs successfully, and
every raised error is a `ValueError`. -/
theorem safe_C8_amended (methods : List String) (aeff_percent bias_percent : ℚ)
    (position : Option SkyCoordQ) (fixed_offset : Option ℚ) (offset_max : ℚ) :
    (∃ e, SafeMaskMaker.init methods aeff_percent bias_percent position
        fixed_offset offset_max = .error e ∧ e.isValueError = true) ↔
      (¬ (∀ mth ∈ methods, mth ∈ availableMethods) ∨
        (position.isSome = true ∧ ∃ x, fixed_offset = some x ∧ x ≠ 0)) := by
  by_cases hsub : (methods.all (fun mth => availableMethods.contains mth)) = true
  · by_cases htr : (truthySky position && truthyAngle fixed_offset) = true
    · have he : SafeMaskMaker.init methods aeff_percent bias_percent position
          fixed_offset offset_max
          = .error (.valueError ("position and fixed_offset attributes are mutually exclusive")) := by
        unfold SafeMaskMaker.init
        rw [if_neg (not_not_intro hsub), if_pos htr]
      obtain ⟨h1, h2⟩ : truthySky position = true ∧ truthyAngle fixed_offset = true := by
        simpa using htr
      constructor
      · intro _
        right
        refine ⟨?_, (truthyAngle_eq_true_iff _).mp h2⟩
        rw [← truthySky_eq_isSome]
        exact h1
      · intro _
        exact ⟨_, he, rfl⟩
    · have he : SafeMaskMaker.init methods aeff_percent bias_percent position
          fixed_offset offset_max
          = .ok { methods := methods, aeff_percent := aeff_percent,
                  bias_percent := bias_percent, position := position,
                  fixed_offset := fixed_offset, offset_max := offset_max } := by
        unfold SafeMaskMaker.init
        rw [if_neg (not_not_intro hsub), if_neg htr]
      constructor
      · intro h
        obtain ⟨e, hee, _⟩ := h
        rw [he] at hee
        cases hee
      · intro h
        rcases h with hbad | ⟨hpos, x, hx, hxne⟩
        · exact absurd ((all_contains_iff methods).mp hsub) hbad
        · exfalso
          apply htr
          have h1 : truthySky position = true := by
            rw [truthySky_eq_isSome]
            exact hpos
          have h2 : truthyAngle fixed_offset = true :=
            (truthyAngle_eq_true_iff _).mpr ⟨x, hx, hxne⟩
          simp [h1, h2]
  · have he : SafeMaskMaker.init methods aeff_percent bias_percent position
        fixed_offset offset_max
        = .error (.valueError ("is not a valid method.")) := by
      unfold SafeMaskMaker.init
      rw [if_pos hsub]
    constructor
    · intro _
      left
      intro hall
      exact hsub ((all_contains_iff methods).mpr hall)
    · intro _
      exact ⟨_, he, rfl⟩

/-- Length of a bin-wise AND. -/
theorem zipAnd_length (a b : List Bool) : (zipAnd a b).length = min a.length b.length := by
  simp [zipAnd]

/-- Entry of a bin-wise AND. -/
theorem zipAnd_getD (a b : List Bool) (j : ℕ) (hja : j < a.length) (hjb : j < b.length) :
    (zipAnd a b).getD j false = (a.getD j false && b.getD j false) := by
  unfold zipAnd
  rw [List.getD_eq_getElem _ false (by rw [List.length_zipWith]; omega),
      List.getElem_zipWith, List.getD_eq_getElem a false hja,
      List.getD_eq_getElem b false hjb]

/-- An energy mask has one entry per bin. -/
theorem energyMask_length (edges : List ℚ) (emin emax : Option ℚ) :
    (energyMask edges emin emax).length = edges.length - 1 := by
  simp [energyMask]

/-- Entry of a lower-bounded energy mask: bin `j` is kept iff its lower
edge is at least the bound. -/
theorem energyMask_getD (edges : List ℚ) (lo : ℚ) (j : ℕ)
    (hj : j + 1 < edges.length) :
    (energyMask edges (some lo) none).getD j false = decide (lo ≤ edges.getD j 0) := by
  have hlen : j < (energyMask edges (some lo) none).length := by
    rw [energyMask_length]
    omega
  rw [List.getD_eq_getElem _ false hlen]
  unfold energyMask
  rw [List.getElem_map, List.getElem_zip]
  simp only [Option.elim, Bool.and_true]
  rw [List.getD_eq_getElem edges 0 (by omega)]

/-- Lemma: `firstIdxPos` returns a valid index of a positive value, and all
earlier values are non-positive. -/
theorem firstIdxPos_spec (l : List ℚ) (i : ℕ) (h : firstIdxPos l = some i) :
    i < l.length ∧ 0 < l.getD i 0 ∧ ∀ j, j < i → ¬ 0 < l.getD j 0 := by
  induction l generalizing i with
  | nil => cases h
  | cons x xs ih =>
      unfold firstIdxPos at h
      by_cases hx : 0 < x
      · rw [if_pos hx] at h
        cases h
        exact ⟨by simp, by simpa using hx, by omega⟩
      · rw [if_neg hx] at h
        obtain ⟨i0, hi0, rfl⟩ : ∃ i0, firstIdxPos xs = some i0 ∧ i0 + 1 = i := by
          cases hfi : firstIdxPos xs with
          | none => rw [hfi] at h; cases h
          | some k => rw [hfi] at h; cases h; exact ⟨k, rfl, rfl⟩
        obtain ⟨h1, h2, h3⟩ := ih i0 hi0
        refine ⟨by simpa using h1, by simpa using h2, ?_⟩
        intro j hj
        cases j with
        | zero => simpa using hx
        | succ j0 =>
            have := h3 j0 (by omega)
            simpa using this

/-- Every element is at most the running maximum of a fold. -/
theorem le_foldl_max (l : List ℚ) (acc : ℚ) :
    acc ≤ l.foldl max acc ∧ ∀ x ∈ l, x ≤ l.foldl max acc := by
  induction l generalizing acc with
  | nil => exact ⟨le_refl acc, by simp⟩
  | cons y ys ih =>
      refine ⟨?_, ?_⟩
      · exact le_trans (le_max_left acc y) (ih (max acc y)).1
      · intro x hx
        rcases List.mem_cons.mp hx with rfl | hx2
        · exact le_trans (le_max_right acc x) (ih (max acc x)).1
        · exact (ih (max acc y)).2 x hx2

/-- Lemma: `listMax` bounds every element of the array. -/
theorem le_listMax (l : List ℚ) (x : ℚ) (hx : x ∈ l) : x ≤ listMax l :=
  (le_foldl_max l (l.headD 0)).2 x hx

/-- Lemma: `argmaxFirst` returns a valid index of the maximum, and the first such
index: all earlier values are strictly smaller. -/
theorem argmaxFirst_spec (l : List ℚ) (hne : l ≠ []) :
    argmaxFirst l < l.length ∧
    (∀ j, j < l.length → l.getD j 0 ≤ l.getD (argmaxFirst l) 0) ∧
    (∀ j, j < argmaxFirst l → l.getD j 0 < l.getD (argmaxFirst l) 0) := by
  induction l with
  | nil => exact absurd rfl hne
  | cons x xs ih =>
      by_cases hxs : xs.isEmpty
      · have hxs2 : xs = [] := List.isEmpty_iff.mp hxs
        subst hxs2
        have hs : argmaxFirst [x] = 0 := rfl
        rw [hs]
        refine ⟨by simp, ?_, by omega⟩
        intro j hj
        have hj0 : j = 0 := by simpa using hj
        subst hj0
        simp
      · have hxs2 : xs ≠ [] := by
          intro hc
          rw [hc] at hxs
          exact hxs rfl
        obtain ⟨hr1, hr2, hr3⟩ := ih hxs2
        have hs : argmaxFirst (x :: xs)
            = if x < xs.getD (argmaxFirst xs) 0 then argmaxFirst xs + 1 else 0 := by
          conv_lhs => rw [argmaxFirst]
          rw [if_neg hxs]
        by_cases hlt : x < xs.getD (argmaxFirst xs) 0
        · rw [hs, if_pos hlt]
          refine ⟨by simpa using hr1, ?_, ?_⟩
          · intro j hj
            cases j with
            | zero => simpa using le_of_lt hlt
            | succ j0 => simpa using hr2 j0 (by simpa using hj)
          · intro j hj
            cases j with
            | zero => simpa using hlt
            | succ j0 => simpa using hr3 j0 (by omega)
        · rw [hs, if_neg hlt]
          have hle : xs.getD (argmaxFirst xs) 0 ≤ x := not_lt.mp hlt
          refine ⟨by simp, ?_, by omega⟩
          intro j hj
          cases j with
          | zero => simp
          | succ j0 =>
              have := le_trans (hr2 j0 (by simpa using hj)) hle
              simpa using this

/-- Strictly sorted edges are strictly monotone in their indices. -/
theorem sorted_getD_lt (edges : List ℚ)
    (hs : List.Sorted (fun a b : ℚ => a < b) edges)
    (i j : ℕ) (hij : i < j) (hj : j < edges.length) :
    edges.getD i 0 < edges.getD j 0 := by
  rw [List.getD_eq_getElem edges 0 (lt_trans hij hj), List.getD_eq_getElem edges 0 hj]
  exact List.pairwise_iff_getElem.mp hs i j (lt_trans hij hj) hj hij

/-- C3: `make_mask_energy_aeff_max` computes the threshold as
`aeff_percent/100` times the maximum of the effective-area spectrum at the
resolved position, inverts the effective-area curve at that threshold
between the first energy with positive effective area and the first energy
node, and lower-bounds the safe-energy mask by the inversion result unless
it is NaN, in which case the first energy with positive effective area is
used instead. -/
theorem safe_C3 (m : SafeMaskMaker) (d : SMDataset) (observation : Option Observation)
    (p : SkyCoordQ) (hp : aeffMaxPosition m d observation = .ok p)
    (i : ℕ) (hi : firstIdxPos (d.aeffAt p).values = some i) :
    make_mask_energy_aeff_max m d observation =
      .ok (energyMask d.edges
        (some (((d.aeffAt p).inverse
            (m.aeff_percent / 100 * listMax (d.aeffAt p).values)
            ((d.aeffAt p).energy.getD i 0)
            ((d.aeffAt p).energy.getD 0 0)).elim
          ((d.aeffAt p).energy.getD i 0) (fun e => e))) none) ∧
    0 < (d.aeffAt p).values.getD i 0 ∧
    (∀ j, j < i → ¬ 0 < (d.aeffAt p).values.getD j 0) ∧
    (∀ x ∈ (d.aeffAt p).values, x ≤ listMax (d.aeffAt p).values) := by
  obtain ⟨h1, h2, h3⟩ := firstIdxPos_spec _ _ hi
  refine ⟨?_, h2, h3, fun x hx => le_listMax _ x hx⟩
  unfold make_mask_energy_aeff_max
  rw [hp]
  simp only [Except.bind, hi]
  cases hinv : (d.aeffAt p).inverse (m.aeff_percent / 100 * listMax (d.aeffAt p).values)
      ((d.aeffAt p).energy.getD i 0) ((d.aeffAt p).energy.getD 0 0) with
  | none => simp [Option.elim]
  | some e => simp [Option.elim]

def safeSampleObs : Observation := ⟨1, fun _ => ⟨1, 1⟩⟩

def safeSampleDataset : SMDataset :=
  { edges := [1, 2, 4]
  , background := some [some 1, some 2]
  , stat_type := ("cash")
  , center_skydir := ⟨0, 0⟩
  , sepFrom := fun _ => [0, 0]
  , aeffDefaultMaskOf := fun _ => [true, true]
  , aeffAt := fun _ => ⟨[1, 2], [5, 5], fun _ _ _ => some 1⟩
  , edispBiasEnergy := fun _ _ => 1
  , npredSpectrum := [3, 1] }

def safeSampleMaker3 : SafeMaskMaker :=
  { methods := [("aeff-max")], aeff_percent := 10, bias_percent := 10,
    position := none, fixed_offset := none, offset_max := 3 }

/-- Witness for C3 at a concrete maker and dataset (centre position,
two effective-area nodes, inversion defined). -/
theorem safe_C3_witness :
    make_mask_energy_aeff_max safeSampleMaker3 safeSampleDataset none =
      .ok (energyMask safeSampleDataset.edges
        (some (((safeSampleDataset.aeffAt ⟨0, 0⟩).inverse
            (safeSampleMaker3.aeff_percent / 100
              * listMax (safeSampleDataset.aeffAt ⟨0, 0⟩).values)
            ((safeSampleDataset.aeffAt ⟨0, 0⟩).energy.getD 0 0)
            ((safeSampleDataset.aeffAt ⟨0, 0⟩).energy.getD 0 0)).elim
          ((safeSampleDataset.aeffAt ⟨0, 0⟩).energy.getD 0 0) (fun e => e))) none) ∧
    0 < (safeSampleDataset.aeffAt ⟨0, 0⟩).values.getD 0 0 ∧
    (∀ j, j < 0 → ¬ 0 < (safeSampleDataset.aeffAt ⟨0, 0⟩).values.getD j 0) ∧
    (∀ x ∈ (safeSampleDataset.aeffAt ⟨0, 0⟩).values,
      x ≤ listMax (safeSampleDataset.aeffAt ⟨0, 0⟩).values) :=
  safe_C3 safeSampleMaker3 safeSampleDataset none ⟨0, 0⟩ (by rfl) 0
    (by norm_num [firstIdxPos, safeSampleDataset])

/-- C4: `make_mask_energy_bkg_peak` masks below the upper edge of the
energy bin holding the highest predicted background rate — the mask equals
the energy mask lower-bounded by the upper edge of that bin — and when several
bins tie for the highest rate the first (lowest-energy) bin is chosen: the
selected bin attains the maximum and every earlier bin is strictly below
it. -/
theorem safe_C4 (d : SMDataset)
    (hsort : List.Sorted (fun a b : ℚ => a < b) d.edges)
    (hlen : d.npredSpectrum.length = d.nbins)
    (hne : d.npredSpectrum ≠ []) :
    make_mask_energy_bkg_peak d =
      .ok (energyMask d.edges
        (some (d.edges.getD (argmaxFirst d.npredSpectrum + 1) 0)) none) ∧
    (∀ j, j < d.npredSpectrum.length →
      d.npredSpectrum.getD j 0 ≤ d.npredSpectrum.getD (argmaxFirst d.npredSpectrum) 0) ∧
    (∀ j, j < argmaxFirst d.npredSpectrum →
      d.npredSpectrum.getD j 0 < d.npredSpectrum.getD (argmaxFirst d.npredSpectrum) 0) := by
  obtain ⟨ha1, ha2, ha3⟩ := argmaxFirst_spec _ hne
  refine ⟨?_, ha2, ha3⟩
  have hred : make_mask_energy_bkg_peak d
      = .ok (energyMask d.edges
          (some (pixToCoord d.edges (argmaxFirst d.npredSpectrum))) none) := by
    unfold make_mask_energy_bkg_peak
    cases hsp : d.npredSpectrum with
    | nil => exact absurd hsp hne
    | cons a as => rfl
  rw [hred]
  have hpos : 0 < d.npredSpectrum.length := List.length_pos.mpr hne
  have hnb : d.nbins = d.edges.length - 1 := rfl
  have hidxE : argmaxFirst d.npredSpectrum + 1 < d.edges.length := by
    unfold SMDataset.nbins at hlen
    omega
  have hlt : d.edges.getD (argmaxFirst d.npredSpectrum) 0
      < d.edges.getD (argmaxFirst d.npredSpectrum + 1) 0 :=
    sorted_getD_lt d.edges hsort _ _ (by omega) hidxE
  have hmidlow : d.edges.getD (argmaxFirst d.npredSpectrum) 0
      < pixToCoord d.edges (argmaxFirst d.npredSpectrum) := by
    unfold pixToCoord
    linarith
  have hmidhigh : pixToCoord d.edges (argmaxFirst d.npredSpectrum)
      < d.edges.getD (argmaxFirst d.npredSpectrum + 1) 0 := by
    unfold pixToCoord
    linarith
  congr 1
  apply List.ext_getElem
  · rw [energyMask_length, energyMask_length]
  · intro j hj1 hj2
    have hjlt : j + 1 < d.edges.length := by
      rw [energyMask_length] at hj1
      omega
    have e1 := energyMask_getD d.edges
      (pixToCoord d.edges (argmaxFirst d.npredSpectrum)) j hjlt
    have e2 := energyMask_getD d.edges
      (d.edges.getD (argmaxFirst d.npredSpectrum + 1) 0) j hjlt
    rw [List.getD_eq_getElem _ false hj1] at e1
    rw [List.getD_eq_getElem _ false hj2] at e2
    rw [e1, e2]
    rcases le_or_lt (argmaxFirst d.npredSpectrum + 1) j with hge | hlt2
    · have hup : d.edges.getD (argmaxFirst d.npredSpectrum + 1) 0 ≤ d.edges.getD j 0 := by
        rcases eq_or_lt_of_le hge with heq | hstrict
        · rw [heq]
        · exact le_of_lt (sorted_getD_lt d.edges hsort _ _ hstrict (by omega))
      have hmid : pixToCoord d.edges (argmaxFirst d.npredSpectrum) ≤ d.edges.getD j 0 :=
        le_of_lt (lt_of_lt_of_le hmidhigh hup)
      rw [decide_eq_decide]
      exact iff_of_true hmid hup
    · have hjle : j ≤ argmaxFirst d.npredSpectrum := by omega
      have hdown : d.edges.getD j 0 ≤ d.edges.getD (argmaxFirst d.npredSpectrum) 0 := by
        rcases eq_or_lt_of_le hjle with heq | hstrict
        · rw [heq]
        · exact le_of_lt (sorted_getD_lt d.edges hsort _ _ hstrict (by omega))
      have hmid : ¬ pixToCoord d.edges (argmaxFirst d.npredSpectrum) ≤ d.edges.getD j 0 :=
        not_le.mpr (lt_of_le_of_lt hdown hmidlow)
      have hup : ¬ d.edges.getD (argmaxFirst d.npredSpectrum + 1) 0 ≤ d.edges.getD j 0 :=
        not_le.mpr (lt_of_le_of_lt hdown (lt_trans hmidlow hmidhigh))
      rw [decide_eq_decide]
      exact iff_of_false hmid hup

/-- Witness for C4 at the concrete dataset: the background spectrum peaks
in the first bin. -/
theorem safe_C4_witness :
    make_mask_energy_bkg_peak safeSampleDataset =
      .ok (energyMask safeSampleDataset.edges
        (some (safeSampleDataset.edges.getD (argmaxFirst safeSampleDataset.npredSpectrum + 1) 0)) none) ∧
    (∀ j, j < safeSampleDataset.npredSpectrum.length →
      safeSampleDataset.npredSpectrum.getD j 0
        ≤ safeSampleDataset.npredSpectrum.getD (argmaxFirst safeSampleDataset.npredSpectrum) 0) ∧
    (∀ j, j < argmaxFirst safeSampleDataset.npredSpectrum →
      safeSampleDataset.npredSpectrum.getD j 0
        < safeSampleDataset.npredSpectrum.getD (argmaxFirst safeSampleDataset.npredSpectrum) 0) :=
  safe_C4 safeSampleDataset
    (by norm_num [safeSampleDataset, List.Sorted])
    (by norm_num [safeSampleDataset, SMDataset.nbins])
    (by simp [safeSampleDataset])

/-- A skipped step passes the mask through unchanged. -/
theorem chainMask_false (sub : Except PyErr (List Bool)) (mask : List Bool) :
    chainMask false sub mask = .ok mask := rfl

/-- A guard implication as a boolean. -/
theorem bor_not_eq_true (sel v : Bool) :
    ((!sel || v) = true) ↔ (sel = true → v = true) := by
  cases sel <;> cases v <;> simp

/-- One guarded AND step, on success: the output is the input AND-ed with
the sub-mask when the step is selected, otherwise the input. -/
theorem chainMask_spec (sel : Bool) (sub : Except PyErr (List Bool)) (mask : List Bool)
    (v : List Bool) (n : ℕ)
    (hsub : sel = true → sub = .ok v) (hv : v.length = n) (hm : mask.length = n) :
    ∃ out, chainMask sel sub mask = .ok out ∧ out.length = n ∧
      ∀ j, j < n →
        out.getD j false = (mask.getD j false && (!sel || v.getD j false)) := by
  cases sel with
  | false =>
      refine ⟨mask, rfl, hm, ?_⟩
      intro j hj
      simp
  | true =>
      rw [chainMask, if_pos rfl, hsub rfl]
      refine ⟨zipAnd mask v, rfl, ?_, ?_⟩
      · rw [zipAnd_length, hv, hm]
        omega
      · intro j hj
        rw [zipAnd_getD mask v j (by omega) (by omega)]
        simp

/-- The invalid-background mask has one entry per background bin. -/
theorem make_mask_bkg_invalid_length (bkg : List (Option ℚ)) (stat : String) :
    (make_mask_bkg_invalid bkg stat).length = bkg.length := by
  unfold make_mask_bkg_invalid
  split <;> simp

/-- The base mask of `run`: all-true, with the invalid-background mask
AND-ed in exactly when a background is present. -/
theorem baseMask_spec (d : SMDataset)
    (hlbg : ∀ bkg, d.background = some bkg → bkg.length = d.nbins) :
    (baseMask d).length = d.nbins ∧
    ∀ j, j < d.nbins →
      ((baseMask d).getD j false = true ↔
        ∀ bkg, d.background = some bkg →
          (make_mask_bkg_invalid bkg d.stat_type).getD j false = true) := by
  unfold baseMask
  cases hbg : d.background with
  | none =>
      refine ⟨by simp, ?_⟩
      intro j hj
      constructor
      · intro _ bkg hc
        cases hc
      · intro _
        rw [List.getD_eq_getElem _ false (by simpa using hj)]
        exact List.getElem_replicate _ _
  | some bkg =>
      have hlen : bkg.length = d.nbins := hlbg bkg hbg
      have hinvlen : (make_mask_bkg_invalid bkg d.stat_type).length = d.nbins := by
        rw [make_mask_bkg_invalid_length, hlen]
      refine ⟨?_, ?_⟩
      · rw [zipAnd_length, hinvlen, List.length_replicate]
        omega
      · intro j hj
        rw [zipAnd_getD _ _ j (by simpa using hj) (by omega)]
        rw [List.getD_eq_getElem (List.replicate d.nbins true) false (by simpa using hj)]
        rw [List.getElem_replicate]
        simp only [Bool.true_and]
        constructor
        · intro h bkg2 hbg2
          cases hbg2
          exact h
        · intro h
          exact h bkg rfl

/-- Any raised error of the computation is a `ValueError`. -/
def onlyVE (x : Except PyErr (List Bool)) : Prop :=
  ∀ e, x = .error e → e.isValueError = true

/-- The computation certainly raises, and the error is a `ValueError`. -/
def failsVE (x : Except PyErr (List Bool)) : Prop :=
  ∃ e, x = .error e ∧ e.isValueError = true

/-- A success never satisfies the error predicate vacuously falsified. -/
theorem onlyVE_ok (v : List Bool) : onlyVE (.ok v) :=
  fun _ he => Except.noConfusion he

/-- Lemma: `onlyVE` propagates through `bind`. -/
theorem onlyVE_bind (x : Except PyErr (List Bool)) (f : List Bool → Except PyErr (List Bool))
    (hx : onlyVE x) (hf : ∀ v, onlyVE (f v)) : onlyVE (x.bind f) := by
  cases x with
  | error e0 =>
      intro e he
      simp only [Except.bind] at he
      cases he
      exact hx _ rfl
  | ok v =>
      intro e he
      simp only [Except.bind] at he
      exact hf v e he

/-- A certain failure on the left of a `bind` is a certain failure. -/
theorem failsVE_bind_left (x : Except PyErr (List Bool))
    (f : List Bool → Except PyErr (List Bool)) (hx : failsVE x) : failsVE (x.bind f) := by
  obtain ⟨e, he, hv⟩ := hx
  refine ⟨e, ?_, hv⟩
  rw [he]
  rfl

/-- A `bind` whose left side only raises `ValueError`s and whose right side
certainly raises a `ValueError` certainly raises a `ValueError`. -/
theorem failsVE_bind (x : Except PyErr (List Bool))
    (f : List Bool → Except PyErr (List Bool))
    (hx : onlyVE x) (hf : ∀ v, failsVE (f v)) : failsVE (x.bind f) := by
  cases x with
  | error e0 => exact ⟨e0, rfl, hx e0 rfl⟩
  | ok v =>
      obtain ⟨e, he, hv⟩ := hf v
      refine ⟨e, ?_, hv⟩
      simp only [Except.bind]
      exact he

/-- A guarded step only raises what its sub-computation raises. -/
theorem onlyVE_chainMask (sel : Bool) (sub : Except PyErr (List Bool)) (mask : List Bool)
    (hsub : onlyVE sub) : onlyVE (chainMask sel sub mask) := by
  intro e he
  cases sel with
  | false => simp [chainMask] at he
  | true =>
      rw [chainMask, if_pos rfl] at he
      cases sub with
      | error e0 =>
          simp only [Except.map] at he
          cases he
          exact hsub _ rfl
      | ok v => simp [Except.map] at he

/-- A selected guarded step whose sub-computation certainly raises a
`ValueError` certainly raises a `ValueError`. -/
theorem failsVE_chainMask (sub : Except PyErr (List Bool)) (mask : List Bool)
    (hsub : failsVE sub) : failsVE (chainMask true sub mask) := by
  obtain ⟨e, he, hv⟩ := hsub
  refine ⟨e, ?_, hv⟩
  rw [chainMask, if_pos rfl, he]
  rfl

/-- Lemma: `make_mask_offset_max` only raises `ValueError`. -/
theorem onlyVE_make_mask_offset_max (m : SafeMaskMaker) (d : SMDataset)
    (observation : Option Observation) : onlyVE (make_mask_offset_max m d observation) := by
  intro e he
  cases observation with
  | none =>
      unfold make_mask_offset_max at he
      cases he
      rfl
  | some obs => simp [make_mask_offset_max] at he

/-- Lemma: `make_mask_energy_aeff_default` only raises `ValueError`. -/
theorem onlyVE_make_mask_energy_aeff_default (d : SMDataset)
    (observation : Option Observation) :
    onlyVE (make_mask_energy_aeff_default d observation) := by
  intro e he
  cases observation with
  | none =>
      unfold make_mask_energy_aeff_default at he
      cases he
      rfl
  | some obs => simp [make_mask_energy_aeff_default] at he

/-- With a truthy `fixed_offset` and no observation forwarded,
`make_mask_energy_aeff_max` certainly raises a `ValueError`. -/
theorem failsVE_make_mask_energy_aeff_max_none (m : SafeMaskMaker) (d : SMDataset)
    (hfo : truthyAngle m.fixed_offset = true) :
    failsVE (make_mask_energy_aeff_max m d none) := by
  refine ⟨.valueError ("observation argument is mandatory with fixed_offset"), ?_, rfl⟩
  unfold make_mask_energy_aeff_max aeffMaxPosition
  rw [if_pos hfo]
  rfl

/-- With a truthy `fixed_offset` and no observation forwarded,
`make_mask_energy_edisp_bias` certainly raises a `ValueError`. -/
theorem failsVE_make_mask_energy_edisp_bias_none (m : SafeMaskMaker) (d : SMDataset)
    (hfo : truthyAngle m.fixed_offset = true) :
    failsVE (make_mask_energy_edisp_bias m d none) := by
  refine ⟨.valueError ("None argument is mandatory with fixed_offset"), ?_, rfl⟩
  unfold make_mask_energy_edisp_bias
  rw [if_pos hfo]
  rfl

/-- C2: on a run in which every selected method succeeds, `run` produces
the bin-wise logical AND of the masks of the selected methods together with the
invalid-background mask when a background is present: a bin is safe iff
every selected method (and the background-validity check) marks it
safe. -/
theorem safe_C2 (m : SafeMaskMaker) (d : SMDataset) (observation : Option Observation)
    (voff vdef vmax vbias vpeak : List Bool)
    (hoff : m.methods.contains ("offset-max") = true →
      make_mask_offset_max m d observation = .ok voff)
    (hdef : m.methods.contains ("aeff-default") = true →
      make_mask_energy_aeff_default d observation = .ok vdef)
    (hmax : m.methods.contains ("aeff-max") = true →
      make_mask_energy_aeff_max m d none = .ok vmax)
    (hbias : m.methods.contains ("edisp-bias") = true →
      make_mask_energy_edisp_bias m d none = .ok vbias)
    (hpeak : m.methods.contains ("bkg-peak") = true →
      make_mask_energy_bkg_peak d = .ok vpeak)
    (hloff : voff.length = d.nbins) (hldef : vdef.length = d.nbins)
    (hlmax : vmax.length = d.nbins) (hlbias : vbias.length = d.nbins)
    (hlpeak : vpeak.length = d.nbins)
    (hlbg : ∀ bkg, d.background = some bkg → bkg.length = d.nbins) :
    ∃ msk, m.run d observation = .ok msk ∧ msk.length = d.nbins ∧
      ∀ j, j < d.nbins →
        (msk.getD j false = true ↔
          ((∀ bkg, d.background = some bkg →
              (make_mask_bkg_invalid bkg d.stat_type).getD j false = true) ∧
           (m.methods.contains ("offset-max") = true → voff.getD j false = true) ∧
           (m.methods.contains ("aeff-default") = true → vdef.getD j false = true) ∧
           (m.methods.contains ("aeff-max") = true → vmax.getD j false = true) ∧
           (m.methods.contains ("edisp-bias") = true → vbias.getD j false = true) ∧
           (m.methods.contains ("bkg-peak") = true → vpeak.getD j false = true))) := by
  obtain ⟨hblen, hbspec⟩ := baseMask_spec d hlbg
  obtain ⟨o1, e1, l1, s1⟩ := chainMask_spec (m.methods.contains ("offset-max"))
    (make_mask_offset_max m d observation) (baseMask d) voff d.nbins hoff hloff hblen
  obtain ⟨o2, e2, l2, s2⟩ := chainMask_spec (m.methods.contains ("aeff-default"))
    (make_mask_energy_aeff_default d observation) o1 vdef d.nbins hdef hldef l1
  obtain ⟨o3, e3, l3, s3⟩ := chainMask_spec (m.methods.contains ("aeff-max"))
    (make_mask_energy_aeff_max m d none) o2 vmax d.nbins hmax hlmax l2
  obtain ⟨o4, e4, l4, s4⟩ := chainMask_spec (m.methods.contains ("edisp-bias"))
    (make_mask_energy_edisp_bias m d none) o3 vbias d.nbins hbias hlbias l3
  obtain ⟨o5, e5, l5, s5⟩ := chainMask_spec (m.methods.contains ("bkg-peak"))
    (make_mask_energy_bkg_peak d) o4 vpeak d.nbins hpeak hlpeak l4
  refine ⟨o5, ?_, l5, ?_⟩
  · unfold SafeMaskMaker.run
    rw [e1]
    simp only [Except.bind]
    rw [e2]
    simp only [Except.bind]
    rw [e3]
    simp only [Except.bind]
    rw [e4]
    simp only [Except.bind]
    rw [e5]
  · intro j hj
    rw [s5 j hj, s4 j hj, s3 j hj, s2 j hj, s1 j hj]
    rw [Bool.and_eq_true, Bool.and_eq_true, Bool.and_eq_true, Bool.and_eq_true,
        Bool.and_eq_true]
    rw [bor_not_eq_true, bor_not_eq_true, bor_not_eq_true, bor_not_eq_true,
        bor_not_eq_true]
    rw [hbspec j hj]
    tauto

/-- C9 amended: for every maker with a truthy (nonzero) `fixed_offset` and
`aeff-max` or `edisp-bias` among its methods, `run` raises a `ValueError`
on every dataset and observation, because `run` invokes
`make_mask_energy_aeff_max` and `make_mask_energy_edisp_bias` without
forwarding the observation argument. -/
theorem safe_C9_amended (m : SafeMaskMaker) (d : SMDataset)
    (observation : Option Observation)
    (hfo : truthyAngle m.fixed_offset = true)
    (hm : m.methods.contains ("aeff-max") = true ∨
      m.methods.contains ("edisp-bias") = true) :
    ∃ e, m.run d observation = .error e ∧ e.isValueError = true := by
  show failsVE (m.run d observation)
  unfold SafeMaskMaker.run
  by_cases hamax : m.methods.contains ("aeff-max") = true
  · rw [hamax]
    apply failsVE_bind_left
    apply failsVE_bind_left
    apply failsVE_bind
    · apply onlyVE_bind
      · exact onlyVE_chainMask _ _ _ (onlyVE_make_mask_offset_max m d observation)
      · intro v
        exact onlyVE_chainMask _ _ _ (onlyVE_make_mask_energy_aeff_default d observation)
    · intro v
      exact failsVE_chainMask _ _ (failsVE_make_mask_energy_aeff_max_none m d hfo)
  · have hbias : m.methods.contains ("edisp-bias") = true := by
      rcases hm with hc | hc
      · exact absurd hc hamax
      · exact hc
    rw [Bool.not_eq_true] at hamax
    rw [hamax, hbias]
    apply failsVE_bind_left
    apply failsVE_bind
    · apply onlyVE_bind
      · apply onlyVE_bind
        · exact onlyVE_chainMask _ _ _ (onlyVE_make_mask_offset_max m d observation)
        · intro v
          exact onlyVE_chainMask _ _ _ (onlyVE_make_mask_energy_aeff_default d observation)
      · intro v
        rw [chainMask_false]
        exact onlyVE_ok v
    · intro v
      exact failsVE_chainMask _ _ (failsVE_make_mask_energy_edisp_bias_none m d hfo)

def safeSampleMaker9 : SafeMaskMaker :=
  { methods := [("aeff-max")], aeff_percent := 10, bias_percent := 10,
    position := none, fixed_offset := some 0, offset_max := 3 }

/-- C9 counterexample: with `fixed_offset` set to the zero angle — a set
but falsy `Angle` — and method `aeff-max`, `run` succeeds on a valid
dataset and observation instead of raising `ValueError`. -/
theorem safe_C9_counterexample :
    exceptOk (safeSampleMaker9.run safeSampleDataset (some safeSampleObs)) = true := by
  rfl

def safeSampleMaker9t : SafeMaskMaker :=
  { methods := [("aeff-max")], aeff_percent := 10, bias_percent := 10,
    position := none, fixed_offset := some 1, offset_max := 3 }

/-- Witness for the amended C9 at a concrete maker with a nonzero
`fixed_offset`. -/
theorem safe_C9_witness :
    ∃ e, safeSampleMaker9t.run safeSampleDataset (some safeSampleObs) = .error e ∧
      e.isValueError = true :=
  safe_C9_amended safeSampleMaker9t safeSampleDataset (some safeSampleObs)
    (by rfl) (Or.inl (by rfl))

def safeSampleMaker2 : SafeMaskMaker :=
  { methods := [("aeff-default"), ("aeff-max"), ("edisp-bias"), ("offset-max"), ("bkg-peak")],
    aeff_percent := 10, bias_percent := 10, position := none, fixed_offset := none,
    offset_max := 3 }

/-- Witness for C2: all five methods selected on the concrete dataset with
a background present. -/
theorem safe_C2_witness :
    ∃ msk, safeSampleMaker2.run safeSampleDataset (some safeSampleObs) = .ok msk ∧
      msk.length = safeSampleDataset.nbins ∧
      ∀ j, j < safeSampleDataset.nbins →
        (msk.getD j false = true ↔
          ((∀ bkg, safeSampleDataset.background = some bkg →
              (make_mask_bkg_invalid bkg safeSampleDataset.stat_type).getD j false = true) ∧
           (safeSampleMaker2.methods.contains ("offset-max") = true →
             ([true, true] : List Bool).getD j false = true) ∧
           (safeSampleMaker2.methods.contains ("aeff-default") = true →
             ([true, true] : List Bool).getD j false = true) ∧
           (safeSampleMaker2.methods.contains ("aeff-max") = true →
             ([true, true] : List Bool).getD j false = true) ∧
           (safeSampleMaker2.methods.contains ("edisp-bias") = true →
             ([true, true] : List Bool).getD j false = true) ∧
           (safeSampleMaker2.methods.contains ("bkg-peak") = true →
             ([false, true] : List Bool).getD j false = true))) :=
  safe_C2 safeSampleMaker2 safeSampleDataset (some safeSampleObs)
    [true, true] [true, true] [true, true] [true, true] [false, true]
    (fun _ => rfl) (fun _ => rfl) (fun _ => rfl) (fun _ => rfl)
    (fun _ => by
      norm_num [make_mask_energy_bkg_peak, safeSampleDataset, energyMask, pixToCoord,
        argmaxFirst, List.zip])
    (by rfl) (by rfl) (by rfl) (by rfl) (by rfl)
    (fun bkg h => by cases h; rfl)

/-- Witness for the amended C8 at a concrete invalid method list. -/
theorem safe_C8_witness :
    ((∃ e, SafeMaskMaker.init [("bogus")] 10 10 none none 3 = .error e ∧
        e.isValueError = true) ↔
      (¬ (∀ mth ∈ [("bogus")], mth ∈ availableMethods) ∨
        ((none : Option SkyCoordQ).isSome = true ∧
          ∃ x, (none : Option ℚ) = some x ∧ x ≠ 0))) :=
  safe_C8_amended [("bogus")] 10 10 none none 3
